import Mathlib

/-!
Shallow embedding of the LC3 virtual machine (Go sources: pkg/cpu/cpu.go,
pkg/registers/registers.go, pkg/opcodes/opcodes.go, pkg/cflags, pkg/traps,
internal/constants).  Sixteen-bit machine words are modelled as `Nat` values
kept below 2 ^ 16; the Go `uint16` wraparound is written explicitly as
`% 65536` at every operation where Go can overflow.  The byte-oriented stdin
and stdout streams are modelled as lists of `Nat` bytes threaded through the
handlers, and the in-place mutation of the Go `cpu` struct becomes explicit
state passing.  Handlers that can fail or that the Go code lets loop forever
return their outcome explicitly; the two scanning trap handlers (PUTS, PUTSP)
take a fuel argument, with result `none` meaning the Go loop has not
terminated within that many iterations.
-/

namespace LC3

/-- Register indices from pkg/registers: R0–R7 are 0–7, then PC and COND. -/
def RR0 : Nat := 0

/-- Register index of the link register R7. -/
def RR7 : Nat := 7

/-- Register index of the program counter. -/
def RPC : Nat := 8

/-- Register index of the condition-flags register. -/
def RCOND : Nat := 9

/-- Memory-mapped keyboard-status register address (pkg/registers MRKBSR). -/
def MRKBSR : Nat := 0xFE00

/-- Memory-mapped keyboard-data register address (pkg/registers MRKBDR). -/
def MRKBDR : Nat := 0xFE02

/-- Condition flag for a positive value (pkg/cflags FLPOS = 1 <<< 0). -/
def FLPOS : Nat := 1

/-- Condition flag for a zero value (pkg/cflags FLZRO = 1 <<< 1). -/
def FLZRO : Nat := 2

/-- Condition flag for a negative value (pkg/cflags FLNEG = 1 <<< 2). -/
def FLNEG : Nat := 4

/-- Pointwise update of a table, modelling Go's in-place array writes. -/
def upd (f : Nat → Nat) (k v : Nat) : Nat → Nat :=
  fun i => if i = k then v else f i

/-- The `cpu` struct of pkg/cpu: 65536-word memory, the 10-entry register
file, and the current opcode / instruction latches.  Memory and registers are
total functions; only indices below 65536 (resp. 10) are ever used. -/
structure Cpu where
  memory : Nat → Nat
  registers : Nat → Nat
  op : Nat
  instr : Nat

/-- The world outside the cpu: bytes still to be delivered by stdin,
bytes written to stdout so far, and bytes the IN trap echoes back onto the
stdin side (the Go code builds a writer on os.Stdin for the echo). -/
structure Streams where
  input : List Nat
  output : List Nat
  inEcho : List Nat

/-- Result of one handler or one executed step: normal return, a halt
request (the cancel continuation), or a Go error return with its message. -/
inductive Outcome where
  | ok : Outcome
  | halt : Outcome
  | fail : String → Outcome
deriving DecidableEq

/-- Write one register, modelling `cpu.registers[r] = v`. -/
def setReg (c : Cpu) (r v : Nat) : Cpu :=
  { c with registers := upd c.registers r v }

/-- Go func (c *cpu) memoryRead(address): a read of MRKBSR first performs a
blocking one-byte read from stdin (EOF is the error case), then stores
1 <<< 15 into MRKBSR and the byte into MRKBDR when the byte is nonzero, or
stores 0 into MRKBSR when the byte is zero, and finally returns the stored
word at the requested address.  Any other address is a plain lookup. -/
def memoryRead (c : Cpu) (io : Streams) (address : Nat) :
    Cpu × Streams × Except String Nat :=
  if address = MRKBSR then
    match io.input with
    | [] => (c, io, .error "read byte: EOF")
    | key :: rest =>
      let io' := { io with input := rest }
      if key ≠ 0 then
        let c' := { c with memory := upd (upd c.memory MRKBSR (1 <<< 15)) MRKBDR key }
        (c', io', .ok (c'.memory address))
      else
        let c' := { c with memory := upd c.memory MRKBSR 0 }
        (c', io', .ok (c'.memory address))
  else
    (c, io, .ok (c.memory address))

/-- Go func (c *cpu) memoryWrite(address, val): unconditional store. -/
def memoryWrite (c : Cpu) (address val : Nat) : Cpu :=
  { c with memory := upd c.memory address val }

/-- Go func (c *cpu) updateFlags(r): recompute COND from registers[r]. -/
def updateFlags (c : Cpu) (r : Nat) : Cpu :=
  if c.registers r = 0 then setReg c RCOND FLZRO
  else if c.registers r >>> 15 ≠ 0 then setReg c RCOND FLNEG
  else setReg c RCOND FLPOS

/-- Go func signExtend(x, bitCount): the shift `0xFFFF << bitCount` is a
uint16 shift, hence the explicit `% 65536`; the `|=` of two words below
2 ^ 16 stays below 2 ^ 16, so it needs no reduction. -/
def signExtend (x bitCount : Nat) : Nat :=
  if (x >>> (bitCount - 1)) &&& 1 ≠ 0 then
    x ||| ((0xFFFF <<< bitCount) % 65536)
  else x

/-- Go func handleAdd: dst = src1 + (register or sign-extended imm5). -/
def handleAdd (c : Cpu) : Cpu :=
  let r0 := (c.instr >>> 9) &&& 0x7
  let r1 := (c.instr >>> 6) &&& 0x7
  let immFlag := (c.instr >>> 5) &&& 0x1
  let c' :=
    if immFlag = 1 then
      setReg c r0 ((c.registers r1 + signExtend (c.instr &&& 0x1F) 5) % 65536)
    else
      setReg c r0 ((c.registers r1 + c.registers (c.instr &&& 0x7)) % 65536)
  updateFlags c' r0

/-- Go func handleAnd: dst = src1 &&& (register or sign-extended imm5). -/
def handleAnd (c : Cpu) : Cpu :=
  let r0 := (c.instr >>> 9) &&& 0x7
  let r1 := (c.instr >>> 6) &&& 0x7
  let immFlag := (c.instr >>> 5) &&& 0x1
  let c' :=
    if immFlag = 1 then
      setReg c r0 (c.registers r1 &&& signExtend (c.instr &&& 0x1F) 5)
    else
      setReg c r0 (c.registers r1 &&& c.registers (c.instr &&& 0x7))
  updateFlags c' r0

/-- Go func handleBr: conditional branch on COND. -/
def handleBr (c : Cpu) : Cpu :=
  let condFlag := (c.instr >>> 9) &&& 0x7
  let pcOffset := signExtend (c.instr &&& 0x1FF) 9
  if condFlag &&& c.registers RCOND ≠ 0 then
    setReg c RPC ((c.registers RPC + pcOffset) % 65536)
  else c

/-- Go func handleJmp: PC = base register. -/
def handleJmp (c : Cpu) : Cpu :=
  let r1 := (c.instr >>> 6) &&& 0x7
  setReg c RPC (c.registers r1)

/-- Go func handleJumpSubroutine: R7 = PC first, then PC = base register
(bit 11 clear) or PC + sign-extended 11-bit offset (bit 11 set). -/
def handleJumpSubroutine (c : Cpu) : Cpu :=
  let c1 := setReg c RR7 (c.registers RPC)
  let bit11 := (c1.instr >>> 11) &&& 0x1
  if bit11 = 0 then
    let baseR := (c1.instr >>> 6) &&& 0x7
    setReg c1 RPC (c1.registers baseR)
  else
    let pcOffset := signExtend (c1.instr &&& 0x7FF) 11
    setReg c1 RPC ((c1.registers RPC + pcOffset) % 65536)

/-- Go func handleLoad: dst = memory[PC + sign-extended 9-bit offset]. -/
def handleLoad (c : Cpu) (io : Streams) : Cpu × Streams × Outcome :=
  let dr := (c.instr >>> 9) &&& 0x7
  let pcOffset := signExtend (c.instr &&& 0x1FF) 9
  match memoryRead c io ((c.registers RPC + pcOffset) % 65536) with
  | (c1, io1, .error e) => (c1, io1, .fail e)
  | (c1, io1, .ok data) => (updateFlags (setReg c1 dr data) dr, io1, .ok)

/-- Go func handleLoadR: dst = memory[base + sign-extended 6-bit offset]. -/
def handleLoadR (c : Cpu) (io : Streams) : Cpu × Streams × Outcome :=
  let dr := (c.instr >>> 9) &&& 0x7
  let br := (c.instr >>> 6) &&& 0x7
  let offset := signExtend (c.instr &&& 0x3F) 6
  match memoryRead c io ((c.registers br + offset) % 65536) with
  | (c1, io1, .error e) => (c1, io1, .fail e)
  | (c1, io1, .ok k) => (updateFlags (setReg c1 dr k) dr, io1, .ok)

/-- Go func handleLoadIndirect: dst = memory[memory[PC + offset]]. -/
def handleLoadIndirect (c : Cpu) (io : Streams) : Cpu × Streams × Outcome :=
  let r0 := (c.instr >>> 9) &&& 0x7
  let pcOffset := signExtend (c.instr &&& 0x1FF) 9
  match memoryRead c io ((c.registers RPC + pcOffset) % 65536) with
  | (c1, io1, .error e) => (c1, io1, .fail e)
  | (c1, io1, .ok addr) =>
    match memoryRead c1 io1 addr with
    | (c2, io2, .error e) => (c2, io2, .fail e)
    | (c2, io2, .ok val) => (updateFlags (setReg c2 r0 val) r0, io2, .ok)

/-- Go func handleStore: memory[PC + sign-extended 9-bit offset] = src. -/
def handleStore (c : Cpu) : Cpu :=
  let sr := (c.instr >>> 9) &&& 0x7
  let pcOffset := signExtend (c.instr &&& 0x1FF) 9
  memoryWrite c ((c.registers RPC + pcOffset) % 65536) (c.registers sr)

/-- Go func handleStoreIndirect: memory[memory[PC + offset]] = src. -/
def handleStoreIndirect (c : Cpu) (io : Streams) : Cpu × Streams × Outcome :=
  let pcOffset := signExtend (c.instr &&& 0x1FF) 9
  match memoryRead c io ((c.registers RPC + pcOffset) % 65536) with
  | (c1, io1, .error e) => (c1, io1, .fail e)
  | (c1, io1, .ok addr) =>
    let sr := (c1.instr >>> 9) &&& 0x7
    (memoryWrite c1 addr (c1.registers sr), io1, .ok)

/-- Go func handleStr: memory[base + sign-extended 6-bit offset] = src. -/
def handleStr (c : Cpu) : Cpu :=
  let sr := (c.instr >>> 9) &&& 0x7
  let baseR := (c.instr >>> 6) &&& 0x7
  let offset := signExtend (c.instr &&& 0x3F) 6
  memoryWrite c ((c.registers baseR + offset) % 65536) (c.registers sr)

/-- Go func handleLoadEffectiveAddress: dst = PC + offset. -/
def handleLoadEffectiveAddress (c : Cpu) : Cpu :=
  let dr := (c.instr >>> 9) &&& 0x7
  let pcOffset := signExtend (c.instr &&& 0x1FF) 9
  updateFlags (setReg c dr ((c.registers RPC + pcOffset) % 65536)) dr

/-- Go func handleNot: dst = bitwise complement of src (uint16 ^x is
x XOR 0xFFFF). -/
def handleNot (c : Cpu) : Cpu :=
  let dr := (c.instr >>> 9) &&& 0x7
  let sr := (c.instr >>> 6) &&& 0x7
  updateFlags (setReg c dr (c.registers sr ^^^ 0xFFFF)) dr

/-- Go func unhandledOpcode error message ("failed to handle opcode %x";
the hex rendering is abstracted to decimal, the text is otherwise the
same). -/
def unhandledMsg (op : Nat) : String :=
  "failed to handle opcode " ++ toString op

/-- Go func unhandledOpcode: the RTI and reserved slots of opTable. -/
def unhandledOpcode (c : Cpu) (io : Streams) : Cpu × Streams × Outcome :=
  (c, io, .fail (unhandledMsg c.op))

/-- Go func handleGetC: blocking one-byte read into R0, then updateFlags. -/
def handleGetC (c : Cpu) (io : Streams) : Cpu × Streams × Outcome :=
  match io.input with
  | [] => (c, io, .fail "read byte: EOF")
  | byt :: rest =>
    (updateFlags (setReg c RR0 byt) RR0, { io with input := rest }, .ok)

/-- Go func handleOut: write the low byte of R0 to stdout and flush. -/
def handleOut (c : Cpu) (io : Streams) : Cpu × Streams × Outcome :=
  (c, { io with output := io.output ++ [c.registers RR0 &&& 0xFF] }, .ok)

/-- UTF-8 bytes that Go's fmt.Printf("%c", char) emits for a code point
below 2 ^ 16: one byte below 0x80, two bytes below 0x800, the replacement
character U+FFFD for the surrogate range, and three bytes otherwise. -/
def utf8Encode (ch : Nat) : List Nat :=
  if ch < 0x80 then [ch]
  else if ch < 0x800 then [0xC0 ||| (ch >>> 6), 0x80 ||| (ch &&& 0x3F)]
  else if 0xD800 ≤ ch ∧ ch < 0xE000 then [0xEF, 0xBF, 0xBD]
  else [0xE0 ||| (ch >>> 12), 0x80 ||| ((ch >>> 6) &&& 0x3F), 0x80 ||| (ch &&& 0x3F)]

/-- Loop body of Go func handlePuts: read the word at addr through
memoryRead, stop on a zero word, otherwise print the word as a character
(fmt.Printf "%c") and continue at addr + 1 (uint16 increment wraps).
`none` means the loop has not finished within the given fuel. -/
def putsLoop : Nat → Cpu → Streams → Nat → Option (Cpu × Streams × Outcome)
  | 0, _, _, _ => none
  | n + 1, c, io, addr =>
    match memoryRead c io addr with
    | (c1, io1, .error e) => some (c1, io1, .fail e)
    | (c1, io1, .ok char) =>
      if char = 0 then some (c1, io1, .ok)
      else
        putsLoop n c1 { io1 with output := io1.output ++ utf8Encode char }
          ((addr + 1) % 65536)

/-- Go func handlePuts: scan from the address in R0. -/
def handlePuts (fuel : Nat) (c : Cpu) (io : Streams) :
    Option (Cpu × Streams × Outcome) :=
  putsLoop fuel c io (c.registers RR0)

/-- Loop body of Go func handlePutsP: per word write the low byte and, when
nonzero, the high byte into a buffered writer; the buffer reaches stdout
only through the final Flush, so it is discarded on the error path. -/
def putspLoop : Nat → Cpu → Streams → List Nat → Nat →
    Option (Cpu × Streams × Outcome)
  | 0, _, _, _, _ => none
  | n + 1, c, io, buf, addr =>
    match memoryRead c io addr with
    | (c1, io1, .error e) => some (c1, io1, .fail e)
    | (c1, io1, .ok char) =>
      if char = 0 then
        some (c1, { io1 with output := io1.output ++ buf }, .ok)
      else
        let buf1 := buf ++ [char &&& 0xFF]
        let buf2 :=
          if char >>> 8 ≠ 0 then buf1 ++ [(char >>> 8) &&& 0xFF] else buf1
        putspLoop n c1 io1 buf2 ((addr + 1) % 65536)

/-- Go func handlePutsP: scan from the address in R0 with an empty buffer. -/
def handlePutsP (fuel : Nat) (c : Cpu) (io : Streams) :
    Option (Cpu × Streams × Outcome) :=
  putspLoop fuel c io [] (c.registers RR0)

/-- Byte sequence of the IN trap's prompt string. -/
def promptBytes : List Nat := (String.toList "Enter a character: ").map Char.toNat

/-- Go func handleIn: print the prompt, read one byte, echo it back onto
the stdin side (the Go code builds its writer on os.Stdin), store it in R0
and update the flags. -/
def handleIn (c : Cpu) (io : Streams) : Cpu × Streams × Outcome :=
  let io0 := { io with output := io.output ++ promptBytes }
  match io0.input with
  | [] => (c, io0, .fail "read byte: EOF")
  | byt :: rest =>
    let io1 := { io0 with input := rest, inEcho := io0.inEcho ++ [byt] }
    (updateFlags (setReg c RR0 byt) RR0, io1, .ok)

/-- Go func handleHalt: invoke the cancel continuation. -/
def handleHalt (c : Cpu) (io : Streams) : Cpu × Streams × Outcome :=
  (c, io, .halt)

/-- Trap vector constants from pkg/traps. -/
def GETC : Nat := 0x20

/-- Trap vector: write one character. -/
def OUT : Nat := 0x21

/-- Trap vector: write a word-per-character string. -/
def PUTS : Nat := 0x22

/-- Trap vector: prompt and read one character. -/
def IN : Nat := 0x23

/-- Trap vector: write a packed two-characters-per-word string. -/
def PUTSP : Nat := 0x24

/-- Trap vector: halt the machine. -/
def HALT : Nat := 0x25

/-- Go func handleTrap: R7 = PC, then dispatch through trapTable on the
instruction's low byte; an unknown vector is the Go error
"unrecognized trap %x" (hex rendering abstracted to decimal). -/
def handleTrap (fuel : Nat) (c : Cpu) (io : Streams) :
    Option (Cpu × Streams × Outcome) :=
  let c1 := setReg c RR7 (c.registers RPC)
  let trap := c1.instr &&& 0xFF
  if trap = GETC then some (handleGetC c1 io)
  else if trap = OUT then some (handleOut c1 io)
  else if trap = PUTS then handlePuts fuel c1 io
  else if trap = IN then some (handleIn c1 io)
  else if trap = PUTSP then handlePutsP fuel c1 io
  else if trap = HALT then some (handleHalt c1 io)
  else some (c1, io, .fail ("unrecognized trap " ++ toString trap))

/-- The opTable dispatch of Go func Run, as the exhaustive map from the
4-bit opcode (pkg/opcodes ordering: BR=0, ADD=1, LD=2, ST=3, JSR=4, AND=5,
LDR=6, STR=7, RTI=8, NOT=9, LDI=10, STI=11, JMP=12, RES=13, LEA=14,
TRAP=15) to its handler; a value outside the table is the Go error
"unrecognized operation". -/
def execOp (fuel op : Nat) (c : Cpu) (io : Streams) :
    Option (Cpu × Streams × Outcome) :=
  if op = 0 then some (handleBr c, io, .ok)
  else if op = 1 then some (handleAdd c, io, .ok)
  else if op = 2 then handleLoad c io |> some
  else if op = 3 then some (handleStore c, io, .ok)
  else if op = 4 then some (handleJumpSubroutine c, io, .ok)
  else if op = 5 then some (handleAnd c, io, .ok)
  else if op = 6 then handleLoadR c io |> some
  else if op = 7 then some (handleStr c, io, .ok)
  else if op = 8 then some (unhandledOpcode c io)
  else if op = 9 then some (handleNot c, io, .ok)
  else if op = 10 then handleLoadIndirect c io |> some
  else if op = 11 then handleStoreIndirect c io |> some
  else if op = 12 then some (handleJmp c, io, .ok)
  else if op = 13 then some (unhandledOpcode c io)
  else if op = 14 then some (handleLoadEffectiveAddress c, io, .ok)
  else if op = 15 then handleTrap fuel c io
  else some (c, io, .fail ("unrecognized operation " ++ toString op))

/-- One iteration of Go func Loop: Step (fetch the word at PC through
memoryRead, increment PC with uint16 wraparound, latch op and instr), then
dispatch through opTable.  A fetch error is returned before PC moves. -/
def runStep (fuel : Nat) (c : Cpu) (io : Streams) :
    Option (Cpu × Streams × Outcome) :=
  match memoryRead c io (c.registers RPC) with
  | (c1, io1, .error e) => some (c1, io1, .fail e)
  | (c1, io1, .ok instr) =>
    let c2 := { setReg c1 RPC ((c1.registers RPC + 1) % 65536) with
                op := instr >>> 12, instr := instr }
    execOp fuel (instr >>> 12) c2 io1

/-- Go func Loop driven to a terminal state: `some (c, io, none)` is the
HALTED terminal state, `some (c, io, some msg)` the FAILED terminal state,
and `none` means the loop is still running after the given fuel. -/
def runLoop : Nat → Cpu → Streams → Option (Cpu × Streams × Option String)
  | 0, _, _ => none
  | n + 1, c, io =>
    match runStep n c io with
    | none => none
    | some (c', io', Outcome.ok) => runLoop n c' io'
    | some (c', io', Outcome.halt) => some (c', io', none)
    | some (c', io', Outcome.fail e) => some (c', io', some e)

/-- Well-formed machine: every register, every memory word and the latched
instruction fit in 16 bits. -/
def WFcpu (c : Cpu) : Prop :=
  (∀ i, c.registers i < 65536) ∧ (∀ a, c.memory a < 65536) ∧ c.instr < 65536

/-- Well-formed input stream: stdin delivers bytes. -/
def WFin (io : Streams) : Prop := ∀ b ∈ io.input, b < 256

/-- Spec-side condition tag of a 16-bit value: the ZERO tag for 0, the
NEGATIVE tag when bit 15 is set, the POSITIVE tag otherwise. -/
def specCond (v : Nat) : Nat :=
  if v = 0 then FLZRO else if (v >>> 15) &&& 1 = 1 then FLNEG else FLPOS

/-- COND agrees with the value most recently written to the destination
register named by bits 11–9 of the latched instruction, and holds exactly
one of the three tags. -/
def condOK (c : Cpu) : Prop :=
  c.registers RCOND = specCond (c.registers ((c.instr >>> 9) &&& 0x7)) ∧
  (c.registers RCOND = FLPOS ∨ c.registers RCOND = FLZRO ∨
    c.registers RCOND = FLNEG)

/-- Spec-side arithmetic two's-complement sign extension of an n-bit field
to 16 bits, written independently of the code: interpret the field as a
signed n-bit integer and reduce it modulo 2 ^ 16. -/
def sextSpec (f n : Nat) : Nat :=
  (((f : Int) - (if 2 ^ (n - 1) ≤ f then (2 ^ n : Int) else 0)) %
    (2 ^ 16 : Int)).toNat

/-- Memory image with no zero word at any 16-bit address. -/
def noZeroWord (m : Nat → Nat) : Prop := ∀ x, x < 65536 → m x ≠ 0

/-- Two register files that agree everywhere except possibly at index k. -/
def differOnlyAt (f g : Nat → Nat) (k : Nat) : Prop :=
  ∀ i, i ≠ k → f i = g i

/-- Streams with nothing read, written, or echoed yet. -/
def emptyStreams : Streams := ⟨[], [], []⟩

/-- Machine whose string at 0x3000 is the single non-ASCII word 0x0100
followed by a zero word, with R0 = 0x3000. -/
def cexPutsCpu : Cpu :=
  ⟨fun a => if a = 0x3000 then 256 else 0,
   fun i => if i = 0 then 0x3000 else 0, 0, 0⟩

/-- Machine latching ADD R0, R1, #1 (0x1061), whose immediate field's low
three bits name R1 = src1, with all registers zero. -/
def cexAddCpuA : Cpu := ⟨fun _ => 0, fun _ => 0, 1, 0x1061⟩

/-- The same machine as cexAddCpuA except register R1 holds 5. -/
def cexAddCpuB : Cpu := ⟨fun _ => 0, fun i => if i = 1 then 5 else 0, 1, 0x1061⟩

/-- Machine with no zero word anywhere in memory and R0 = MRKBSR. -/
def cexLoopCpu : Cpu := ⟨fun _ => 1, fun i => if i = 0 then 0xFE00 else 0, 0, 0⟩

/-- Stream delivering the single byte 0. -/
def cexLoopStreams : Streams := ⟨[0], [], []⟩

/-- Witness machine for C1: constant memory 7, zeroed registers. -/
def wCpu1 : Cpu := ⟨fun _ => 7, fun _ => 0, 0, 0⟩

/-- Witness stream for C1: stdin delivers bytes 65 then 66. -/
def wStreams1 : Streams := ⟨[65, 66], [], []⟩

/-- Machine for the C9 witness: TRAP 0x99 latched, PC at 0x3333. -/
def wCpu9 : Cpu := ⟨fun _ => 0, fun i => if i = 8 then 0x3333 else 4, 15, 0xF099⟩

/-- Machine for the C8 witness: the word at PC = 0x3000 has opcode 8. -/
def wCpu8 : Cpu := ⟨fun _ => 0x8123, fun _ => 0x3000, 0, 0⟩

/-- Machine state after the C8 witness fetch. -/
def wCpu8' : Cpu :=
  { setReg wCpu8 RPC ((wCpu8.registers RPC + 1) % 65536) with
    op := 0x8123 >>> 12, instr := 0x8123 }

/-- Witness machine for C3: ADD R0, R1, #31 (0x107F) latched. -/
def wCpu3 : Cpu := ⟨fun _ => 5, fun _ => 0, 1, 0x107F⟩

/-- Witness machine for C5: ADD R0, R1, #2 (0x1062) latched; the low three
bits name R2, distinct from src1 = R1. -/
def wCpu5a : Cpu := ⟨fun _ => 0, fun i => if i = 1 then 10 else 0, 1, 0x1062⟩

/-- The machine wCpu5a with only register R2 changed. -/
def wCpu5b : Cpu :=
  ⟨fun _ => 0, fun i => if i = 1 then 10 else if i = 2 then 9 else 0, 1, 0x1062⟩

/-- Witness machine for the amended C2: the ASCII string "Hi"
(0x48, 0x69, then a zero word) at 0x3000, with R0 = 0x3000. -/
def wCpu2 : Cpu :=
  ⟨fun a => if a = 0x3000 then 0x48 else if a = 0x3001 then 0x69 else 0,
   fun i => if i = 0 then 0x3000 else 0, 0, 0⟩

/-- Witness machine for the amended C10: constant nonzero memory. -/
def wCpu10 : Cpu := ⟨fun _ => 3, fun _ => 0, 0, 0⟩

/-- Witness stream for the amended C10: five nonzero bytes. -/
def wStreams10 : Streams := ⟨[1, 1, 1, 1, 1], [], []⟩

section Lemmas

/-- Updating at k then reading k yields the new value. -/
theorem upd_self (f : Nat → Nat) (k v : Nat) : upd f k v k = v := by
  simp [upd]

/-- Updating at k leaves every other index unchanged. -/
theorem upd_ne (f : Nat → Nat) (k v i : Nat) (h : i ≠ k) : upd f k v i = f i := by
  simp [upd, h]

/-- Updating preserves a pointwise bound. -/
theorem upd_lt (f : Nat → Nat) (k v B : Nat) (hf : ∀ x, f x < B)
    (hv : v < B) : ∀ x, upd f k v x < B := by
  intro x
  unfold upd
  split
  · exact hv
  · exact hf x

/-- memoryRead never touches the register file. -/
theorem memoryRead_registers (c : Cpu) (io : Streams) (a : Nat) :
    (memoryRead c io a).1.registers = c.registers := by
  unfold memoryRead
  split
  · cases io.input with
    | nil => rfl
    | cons key rest => by_cases hk : key ≠ 0 <;> simp [hk]
  · rfl

/-- memoryRead never touches the instruction latch. -/
theorem memoryRead_instr (c : Cpu) (io : Streams) (a : Nat) :
    (memoryRead c io a).1.instr = c.instr := by
  unfold memoryRead
  split
  · cases io.input with
    | nil => rfl
    | cons key rest => by_cases hk : key ≠ 0 <;> simp [hk]
  · rfl

/-- Equation: a keyboard-status read on an exhausted stdin is the EOF
error, with no state change. -/
theorem memoryRead_eq_kbsr_nil (c : Cpu) (io : Streams) (hin : io.input = []) :
    memoryRead c io MRKBSR = (c, io, Except.error "read byte: EOF") := by
  simp [memoryRead, hin]

/-- Equation: a keyboard-status read delivering a nonzero byte sets MRKBSR
to the high-bit-only word and MRKBDR to the byte, consumes the byte, and
returns the freshly stored status word. -/
theorem memoryRead_eq_kbsr_cons_pos (c : Cpu) (io : Streams) (key : Nat)
    (rest : List Nat) (hin : io.input = key :: rest) (hk : key ≠ 0) :
    memoryRead c io MRKBSR =
      ({ c with memory := upd (upd c.memory MRKBSR (1 <<< 15)) MRKBDR key },
       { io with input := rest }, Except.ok (1 <<< 15)) := by
  simp [memoryRead, hin, hk, upd, MRKBSR, MRKBDR]

/-- Equation: a keyboard-status read delivering the byte 0 stores 0 into
MRKBSR only, consumes the byte, and returns 0. -/
theorem memoryRead_eq_kbsr_cons_zero (c : Cpu) (io : Streams)
    (rest : List Nat) (hin : io.input = 0 :: rest) :
    memoryRead c io MRKBSR =
      ({ c with memory := upd c.memory MRKBSR 0 },
       { io with input := rest }, Except.ok 0) := by
  simp [memoryRead, hin, upd]

/-- Equation: a read of any address other than MRKBSR is a pure lookup. -/
theorem memoryRead_eq_other (c : Cpu) (io : Streams) (a : Nat)
    (ha : a ≠ MRKBSR) :
    memoryRead c io a = (c, io, Except.ok (c.memory a)) := by
  simp [memoryRead, ha]

/-- A successful memoryRead returns a 16-bit word and preserves
well-formedness, the register file and the instruction latch. -/
theorem memoryRead_ok_wf (c c1 : Cpu) (io io1 : Streams) (a v : Nat)
    (hc : WFcpu c) (hio : WFin io)
    (h : memoryRead c io a = (c1, io1, Except.ok v)) :
    v < 65536 ∧ WFcpu c1 ∧ WFin io1 ∧ c1.instr = c.instr ∧
      c1.registers = c.registers := by
  obtain ⟨hreg, hmem, hinstr⟩ := hc
  by_cases ha : a = MRKBSR
  · subst ha
    cases hin : io.input with
    | nil => rw [memoryRead_eq_kbsr_nil c io hin] at h; simp at h
    | cons key rest =>
      have hkey : key < 256 := hio key (by rw [hin]; exact List.mem_cons_self ..)
      have hrest : WFin { io with input := rest } := by
        intro b hb
        exact hio b (by rw [hin]; exact List.mem_cons_of_mem _ hb)
      by_cases hk : key = 0
      · subst hk
        rw [memoryRead_eq_kbsr_cons_zero c io rest hin] at h
        obtain ⟨rfl, rfl, rfl⟩ := by simpa [Prod.ext_iff] using h.symm
        exact ⟨by omega,
          ⟨hreg, upd_lt c.memory MRKBSR 0 65536 hmem (by omega), hinstr⟩,
          hrest, rfl, rfl⟩
      · rw [memoryRead_eq_kbsr_cons_pos c io key rest hin hk] at h
        obtain ⟨rfl, rfl, rfl⟩ := by simpa [Prod.ext_iff] using h.symm
        exact ⟨by omega,
          ⟨hreg,
            upd_lt _ MRKBDR key 65536
              (upd_lt c.memory MRKBSR (1 <<< 15) 65536 hmem (by omega))
              (by omega), hinstr⟩,
          hrest, rfl, rfl⟩
  · rw [memoryRead_eq_other c io a ha] at h
    obtain ⟨rfl, rfl, rfl⟩ := by simpa [Prod.ext_iff] using h.symm
    exact ⟨hmem a, ⟨hreg, hmem, hinstr⟩, hio, rfl, rfl⟩

/-- The only 16-bit values of a right shift by 15. -/
theorem shift15_cases (v : Nat) (h : v < 65536) : v >>> 15 = 0 ∨ v >>> 15 = 1 := by
  rw [Nat.shiftRight_eq_div_pow]
  omega

/-- specCond always yields one of the three distinct tags. -/
theorem specCond_cases (v : Nat) :
    specCond v = FLPOS ∨ specCond v = FLZRO ∨ specCond v = FLNEG := by
  unfold specCond
  split_ifs <;> simp

/-- updateFlags at a register other than COND: COND becomes the spec tag of
that register's (16-bit) value, every other register keeps its value, and
the memory and instruction latch are untouched. -/
theorem updateFlags_spec (c : Cpu) (r : Nat)
    (hv : c.registers r < 65536) :
    (updateFlags c r).registers RCOND = specCond (c.registers r) ∧
    (∀ i, i ≠ RCOND → (updateFlags c r).registers i = c.registers i) ∧
    (updateFlags c r).instr = c.instr ∧
    (updateFlags c r).memory = c.memory := by
  have key : (updateFlags c r).registers RCOND = specCond (c.registers r) := by
    unfold updateFlags specCond
    by_cases h1 : c.registers r = 0
    · simp [h1, setReg, upd_self]
    · rcases shift15_cases _ hv with h | h
      · simp [h1, h, setReg, upd_self]
      · simp [h1, h, setReg, upd_self]
  refine ⟨key, ?_, ?_, ?_⟩
  · intro i hi
    unfold updateFlags
    split_ifs <;> exact upd_ne _ _ _ _ hi
  · unfold updateFlags
    split_ifs <;> rfl
  · unfold updateFlags
    split_ifs <;> rfl

/-- handleBr leaves COND unchanged. -/
theorem handleBr_cond (c : Cpu) :
    (handleBr c).registers RCOND = c.registers RCOND := by
  unfold handleBr
  dsimp only
  split <;> simp [setReg, upd, RPC, RCOND]

/-- handleJmp leaves COND unchanged. -/
theorem handleJmp_cond (c : Cpu) :
    (handleJmp c).registers RCOND = c.registers RCOND := by
  simp [handleJmp, setReg, upd, RPC, RCOND]

/-- handleJumpSubroutine leaves COND unchanged. -/
theorem handleJumpSubroutine_cond (c : Cpu) :
    (handleJumpSubroutine c).registers RCOND = c.registers RCOND := by
  unfold handleJumpSubroutine
  dsimp only
  split <;> simp [setReg, upd, RR7, RPC, RCOND]

/-- handleStoreIndirect leaves the register file unchanged on every path. -/
theorem handleStoreIndirect_registers (c : Cpu) (io : Streams) :
    (handleStoreIndirect c io).1.registers = c.registers := by
  unfold handleStoreIndirect
  dsimp only
  rcases hmr : memoryRead c io ((c.registers RPC + signExtend (c.instr &&& 0x1FF) 9) % 65536)
    with ⟨c1, io1, r⟩
  have hreg : c1.registers = c.registers := by
    have h := memoryRead_registers c io
      ((c.registers RPC + signExtend (c.instr &&& 0x1FF) 9) % 65536)
    rw [hmr] at h
    exact h
  cases r <;> simpa [memoryWrite] using hreg

/-- Numeral form of 2 ^ 16. -/
theorem pow16_eq : (65536 : Nat) = 2 ^ 16 := by norm_num

/-- Bitwise and stays below 2 ^ 16 when the right operand does. -/
theorem and_lt_65536 (x y : Nat) (hy : y < 65536) : x &&& y < 65536 := by
  rw [pow16_eq] at hy ⊢
  exact Nat.and_lt_two_pow x hy

/-- Bitwise xor of 16-bit words is a 16-bit word. -/
theorem xor_lt_65536 (x y : Nat) (hx : x < 65536) (hy : y < 65536) :
    x ^^^ y < 65536 := by
  rw [pow16_eq] at hx hy ⊢
  exact Nat.xor_lt_two_pow hx hy

/-- signExtend keeps 16-bit words 16-bit. -/
theorem signExtend_lt (x n : Nat) (hx : x < 65536) : signExtend x n < 65536 := by
  unfold signExtend
  split
  · rw [pow16_eq]
    exact Nat.or_lt_two_pow (pow16_eq ▸ hx) (pow16_eq ▸ Nat.mod_lt _ (by norm_num))
  · exact hx

/-- Writing a 16-bit value to the destination register named by bits 11–9
of the instruction and then running updateFlags establishes condOK. -/
theorem condOK_of_write (c : Cpu) (v : Nat) (hv : v < 65536) :
    condOK (updateFlags (setReg c ((c.instr >>> 9) &&& 0x7) v)
      ((c.instr >>> 9) &&& 0x7)) := by
  have hr0 : ((c.instr >>> 9) &&& 0x7) ≠ RCOND := by
    have h7 : (c.instr >>> 9) &&& 0x7 ≤ 7 := Nat.and_le_right
    unfold RCOND
    omega
  have hsetinstr : (setReg c ((c.instr >>> 9) &&& 0x7) v).instr = c.instr := rfl
  have c2v : (setReg c ((c.instr >>> 9) &&& 0x7) v).registers
      ((c.instr >>> 9) &&& 0x7) = v := upd_self c.registers _ v
  obtain ⟨hcond, hother, hinstr, -⟩ :=
    updateFlags_spec (setReg c ((c.instr >>> 9) &&& 0x7) v)
      ((c.instr >>> 9) &&& 0x7) (by rw [c2v]; exact hv)
  constructor
  · rw [hinstr, hsetinstr, hother _ hr0, c2v, hcond, c2v]
  · rw [hcond, c2v]
    exact specCond_cases v

/-- handleAdd establishes condOK. -/
theorem condOK_handleAdd (c : Cpu) : condOK (handleAdd c) := by
  unfold handleAdd
  dsimp only
  split
  · exact condOK_of_write c _ (Nat.mod_lt _ (by norm_num))
  · exact condOK_of_write c _ (Nat.mod_lt _ (by norm_num))

/-- handleAnd establishes condOK for a well-formed machine. -/
theorem condOK_handleAnd (c : Cpu) (hc : WFcpu c) : condOK (handleAnd c) := by
  obtain ⟨hreg, -, -⟩ := hc
  unfold handleAnd
  dsimp only
  split
  · exact condOK_of_write c _ (and_lt_65536 _ _ (signExtend_lt _ _
      (and_lt_65536 _ _ (by norm_num))))
  · exact condOK_of_write c _ (and_lt_65536 _ _ (hreg _))

/-- handleNot establishes condOK for a well-formed machine. -/
theorem condOK_handleNot (c : Cpu) (hc : WFcpu c) : condOK (handleNot c) := by
  obtain ⟨hreg, -, -⟩ := hc
  unfold handleNot
  dsimp only
  exact condOK_of_write c _ (xor_lt_65536 _ _ (hreg _) (by norm_num))

/-- handleLoadEffectiveAddress establishes condOK. -/
theorem condOK_handleLea (c : Cpu) : condOK (handleLoadEffectiveAddress c) := by
  unfold handleLoadEffectiveAddress
  dsimp only
  exact condOK_of_write c _ (Nat.mod_lt _ (by norm_num))

/-- A successful handleLoad establishes condOK. -/
theorem condOK_handleLoad (c c' : Cpu) (io io' : Streams)
    (hc : WFcpu c) (hio : WFin io)
    (hl : handleLoad c io = (c', io', Outcome.ok)) : condOK c' := by
  rcases hmr : memoryRead c io
      ((c.registers RPC + signExtend (c.instr &&& 0x1FF) 9) % 65536)
    with ⟨c1, io1, r⟩
  unfold handleLoad at hl
  dsimp only at hl
  rw [hmr] at hl
  cases r with
  | error e => simp at hl
  | ok v =>
    obtain ⟨hwv, -, -, hinstr1, -⟩ := memoryRead_ok_wf c c1 io io1 _ v hc hio hmr
    dsimp only at hl
    have h1 : updateFlags (setReg c1 ((c.instr >>> 9) &&& 0x7) v)
        ((c.instr >>> 9) &&& 0x7) = c' := congrArg Prod.fst hl
    have hck := condOK_of_write c1 v hwv
    rw [hinstr1] at hck
    exact h1 ▸ hck

/-- A successful handleLoadR establishes condOK. -/
theorem condOK_handleLoadR (c c' : Cpu) (io io' : Streams)
    (hc : WFcpu c) (hio : WFin io)
    (hl : handleLoadR c io = (c', io', Outcome.ok)) : condOK c' := by
  rcases hmr : memoryRead c io
      ((c.registers ((c.instr >>> 6) &&& 0x7) + signExtend (c.instr &&& 0x3F) 6) % 65536)
    with ⟨c1, io1, r⟩
  unfold handleLoadR at hl
  dsimp only at hl
  rw [hmr] at hl
  cases r with
  | error e => simp at hl
  | ok v =>
    obtain ⟨hwv, -, -, hinstr1, -⟩ := memoryRead_ok_wf c c1 io io1 _ v hc hio hmr
    dsimp only at hl
    have h1 : updateFlags (setReg c1 ((c.instr >>> 9) &&& 0x7) v)
        ((c.instr >>> 9) &&& 0x7) = c' := congrArg Prod.fst hl
    have hck := condOK_of_write c1 v hwv
    rw [hinstr1] at hck
    exact h1 ▸ hck

/-- A successful handleLoadIndirect establishes condOK. -/
theorem condOK_handleLoadIndirect (c c' : Cpu) (io io' : Streams)
    (hc : WFcpu c) (hio : WFin io)
    (hl : handleLoadIndirect c io = (c', io', Outcome.ok)) : condOK c' := by
  rcases hmr : memoryRead c io
      ((c.registers RPC + signExtend (c.instr &&& 0x1FF) 9) % 65536)
    with ⟨c1, io1, r⟩
  unfold handleLoadIndirect at hl
  dsimp only at hl
  rw [hmr] at hl
  cases r with
  | error e => simp at hl
  | ok addr =>
    obtain ⟨-, hwf1, hio1, hinstr1, -⟩ := memoryRead_ok_wf c c1 io io1 _ addr hc hio hmr
    rcases hmr2 : memoryRead c1 io1 addr with ⟨c2, io2, r2⟩
    dsimp only at hl
    rw [hmr2] at hl
    cases r2 with
    | error e => simp at hl
    | ok v =>
      obtain ⟨hwv, -, -, hinstr2, -⟩ :=
        memoryRead_ok_wf c1 c2 io1 io2 _ v hwf1 hio1 hmr2
      dsimp only at hl
      have h1 : updateFlags (setReg c2 ((c.instr >>> 9) &&& 0x7) v)
          ((c.instr >>> 9) &&& 0x7) = c' := congrArg Prod.fst hl
      have hck := condOK_of_write c2 v hwv
      rw [hinstr2, hinstr1] at hck
      exact h1 ▸ hck

end Lemmas

/-- C1: reading the keyboard-status address 0xFE00 first performs a blocking
one-byte read from the input stream and populates the mapped addresses
before the stored word is returned — a nonzero byte sets keyboard-status to
the word with only the high bit set (1 <<< 15) and keyboard-data 0xFE02 to
the byte zero-extended, while a byte equal to 0 sets keyboard-status to 0
(keyboard-data is then untouched) — and reading any other address returns
the stored word with no side effect on machine state or streams. -/
theorem claim1_keyboard_memory_read (c : Cpu) (io : Streams) :
    (∀ b rest, io.input = b :: rest → b < 256 →
      ((b ≠ 0 → memoryRead c io MRKBSR =
          ({ c with memory := upd (upd c.memory MRKBSR (1 <<< 15)) MRKBDR b },
           { io with input := rest }, Except.ok (1 <<< 15))) ∧
       (b = 0 → memoryRead c io MRKBSR =
          ({ c with memory := upd c.memory MRKBSR 0 },
           { io with input := rest }, Except.ok 0) ∧
          upd c.memory MRKBSR 0 MRKBDR = c.memory MRKBDR))) ∧
    (∀ a, a ≠ MRKBSR → memoryRead c io a = (c, io, Except.ok (c.memory a))) := by
  refine ⟨fun b rest hin _ => ⟨fun hbne => ?_, fun h0 => ?_⟩,
    fun a ha => memoryRead_eq_other c io a ha⟩
  · exact memoryRead_eq_kbsr_cons_pos c io b rest hin hbne
  · subst h0
    exact ⟨memoryRead_eq_kbsr_cons_zero c io rest hin,
      upd_ne _ _ _ _ (by decide)⟩

/-- Witness for C1 at concrete inputs: byte 65 on stdin populates both
mapped registers and returns the status word, and an ordinary address is a
pure lookup. -/
theorem claim1_witness :
    memoryRead wCpu1 wStreams1 MRKBSR =
      ({ wCpu1 with memory := upd (upd wCpu1.memory MRKBSR (1 <<< 15)) MRKBDR 65 },
       { wStreams1 with input := [66] }, Except.ok (1 <<< 15)) ∧
    memoryRead wCpu1 wStreams1 0x3000 =
      (wCpu1, wStreams1, Except.ok (wCpu1.memory 0x3000)) :=
  ⟨((claim1_keyboard_memory_read wCpu1 wStreams1).1 65 [66] rfl
      (by decide)).1 (by decide),
   (claim1_keyboard_memory_read wCpu1 wStreams1).2 0x3000 (by decide)⟩

/-- C6: after the JSR/JSRR handler runs, in both addressing modes and in
particular when the base register is R7, register R7 holds the PC value the
machine held when the handler began. -/
theorem claim6_jsr_link (c : Cpu) :
    (handleJumpSubroutine c).registers RR7 = c.registers RPC := by
  unfold handleJumpSubroutine
  dsimp only
  split <;> simp [setReg, upd, RR7, RPC]

/-- C7: dispatching any of the opcodes BR (0), JMP (12), JSR (4), ST (3),
STI (11) or STR (7) leaves the COND register unchanged, whatever the
outcome. -/
theorem claim7_flags_frame (n op : Nat) (c c' : Cpu) (io io' : Streams)
    (o : Outcome)
    (hop : op = 0 ∨ op = 12 ∨ op = 4 ∨ op = 3 ∨ op = 11 ∨ op = 7)
    (hex : execOp n op c io = some (c', io', o)) :
    c'.registers RCOND = c.registers RCOND := by
  rcases hop with rfl | rfl | rfl | rfl | rfl | rfl <;>
    simp only [execOp] at hex <;>
    norm_num at hex
  · exact hex.1 ▸ handleBr_cond c
  · exact hex.1 ▸ handleJmp_cond c
  · exact hex.1 ▸ handleJumpSubroutine_cond c
  · exact hex.1 ▸ rfl
  · have h1 : (handleStoreIndirect c io).1 = c' := by rw [hex]
    exact h1 ▸ handleStoreIndirect_registers c io ▸ rfl
  · exact hex.1 ▸ rfl

/-- Witness for C7: a concrete ST dispatch (opcode 3) preserves COND. -/
theorem claim7_witness :
    (handleStore wCpu1).registers RCOND = wCpu1.registers RCOND :=
  claim7_flags_frame 1 3 wCpu1 (handleStore wCpu1) wStreams1 wStreams1
    Outcome.ok (by norm_num) rfl

/-- C9: a TRAP instruction whose low byte is none of the six defined
vectors fails with the "unrecognized trap" error, and the only state
mutation is R7 receiving the current PC from the TRAP dispatch itself:
memory is unchanged, every register other than R7 is unchanged, and the
streams are untouched. -/
theorem claim9_unrecognized_trap (n : Nat) (c : Cpu) (io : Streams)
    (htrap : (c.instr &&& 0xFF) ∉ ([GETC, OUT, PUTS, IN, PUTSP, HALT] : List Nat)) :
    handleTrap n c io =
      some (setReg c RR7 (c.registers RPC), io,
        Outcome.fail ("unrecognized trap " ++ toString (c.instr &&& 0xFF))) ∧
    (setReg c RR7 (c.registers RPC)).memory = c.memory ∧
    (setReg c RR7 (c.registers RPC)).registers RR7 = c.registers RPC ∧
    differOnlyAt (setReg c RR7 (c.registers RPC)).registers c.registers RR7 := by
  simp only [List.mem_cons, List.not_mem_nil, or_false, not_or] at htrap
  obtain ⟨h1, h2, h3, h4, h5, h6⟩ := htrap
  refine ⟨?_, rfl, upd_self c.registers RR7 (c.registers RPC), fun i hi => upd_ne _ _ _ _ hi⟩
  simp only [handleTrap]
  have hinstr : (setReg c RR7 (c.registers RPC)).instr = c.instr := rfl
  rw [hinstr, if_neg h1, if_neg h2, if_neg h3, if_neg h4, if_neg h5, if_neg h6]

/-- Witness for C9 at the concrete undefined vector 0x99. -/
theorem claim9_witness :
    handleTrap 1 wCpu9 emptyStreams =
      some (setReg wCpu9 RR7 (wCpu9.registers RPC), emptyStreams,
        Outcome.fail ("unrecognized trap " ++ toString (wCpu9.instr &&& 0xFF))) ∧
    (setReg wCpu9 RR7 (wCpu9.registers RPC)).memory = wCpu9.memory ∧
    (setReg wCpu9 RR7 (wCpu9.registers RPC)).registers RR7 = wCpu9.registers RPC ∧
    differOnlyAt (setReg wCpu9 RR7 (wCpu9.registers RPC)).registers wCpu9.registers RR7 :=
  claim9_unrecognized_trap 1 wCpu9 emptyStreams (by decide)

/-- C8: whenever the fetched word's opcode field is 8 (RTI) or 13 (the
reserved opcode), that execution step ends with the FAILED outcome carrying
the unhandled-opcode reason, and so does the surrounding run loop. -/
theorem claim8_unhandled_opcode (n : Nat) (c c1 : Cpu) (io io1 : Streams)
    (v : Nat)
    (hfetch : memoryRead c io (c.registers RPC) = (c1, io1, Except.ok v))
    (hop : v >>> 12 = 8 ∨ v >>> 12 = 13) :
    runStep n c io =
      some ({ setReg c1 RPC ((c1.registers RPC + 1) % 65536) with
              op := v >>> 12, instr := v }, io1,
            Outcome.fail (unhandledMsg (v >>> 12))) ∧
    runLoop (n + 1) c io =
      some ({ setReg c1 RPC ((c1.registers RPC + 1) % 65536) with
              op := v >>> 12, instr := v }, io1,
            some (unhandledMsg (v >>> 12))) := by
  have hstep : runStep n c io =
      some ({ setReg c1 RPC ((c1.registers RPC + 1) % 65536) with
              op := v >>> 12, instr := v }, io1,
            Outcome.fail (unhandledMsg (v >>> 12))) := by
    simp only [runStep, hfetch]
    rcases hop with h | h <;>
      rw [h] <;>
      simp [execOp, unhandledOpcode, unhandledMsg, h]
  refine ⟨hstep, ?_⟩
  simp only [runLoop, hstep]

/-- Witness for C8 at a concrete RTI instruction 0x8123. -/
theorem claim8_witness :
    runStep 3 wCpu8 emptyStreams =
      some (wCpu8', emptyStreams, Outcome.fail (unhandledMsg (0x8123 >>> 12))) ∧
    runLoop 4 wCpu8 emptyStreams =
      some (wCpu8', emptyStreams, some (unhandledMsg (0x8123 >>> 12))) :=
  claim8_unhandled_opcode 3 wCpu8 wCpu8 emptyStreams emptyStreams 0x8123
    (memoryRead_eq_other wCpu8 emptyStreams 0x3000 (by decide))
    (Or.inl (by decide))


/-- C3: after any successful dispatch of an instruction that writes a
general-purpose register — ADD (1), AND (5), NOT (9), LD (2), LDI (10),
LDR (6), LEA (14) — the COND register holds exactly one of the three
distinct tags, namely the spec tag of the value just written to the
destination register named by bits 11–9: ZERO for 0, NEGATIVE when bit 15
is set, POSITIVE otherwise, never a bitwise combination. -/
theorem claim3_cond_flags (n op : Nat) (c c' : Cpu) (io io' : Streams)
    (hop : op = 1 ∨ op = 5 ∨ op = 9 ∨ op = 2 ∨ op = 10 ∨ op = 6 ∨ op = 14)
    (hc : WFcpu c) (hio : WFin io)
    (hex : execOp n op c io = some (c', io', Outcome.ok)) :
    condOK c' := by
  rcases hop with rfl | rfl | rfl | rfl | rfl | rfl | rfl <;>
    simp only [execOp] at hex <;>
    norm_num at hex
  · exact hex.1 ▸ condOK_handleAdd c
  · exact hex.1 ▸ condOK_handleAnd c hc
  · exact hex.1 ▸ condOK_handleNot c hc
  · exact condOK_handleLoad c c' io io' hc hio hex
  · exact condOK_handleLoadIndirect c c' io io' hc hio hex
  · exact condOK_handleLoadR c c' io io' hc hio hex
  · exact hex.1 ▸ condOK_handleLea c

/-- Witness for C3 at a concrete ADD-immediate dispatch. -/
theorem claim3_witness : condOK (handleAdd wCpu3) :=
  claim3_cond_flags 1 1 wCpu3 (handleAdd wCpu3) wStreams1 wStreams1
    (Or.inl rfl)
    ⟨fun i => by simp [wCpu3], fun a => by simp [wCpu3], by simp [wCpu3]⟩
    (by unfold WFin; decide)
    rfl


/-- Closed-form agreement of the code's signExtend with the spec-side
two's-complement sign extension, for any field width from 1 to 15 and any
in-range field. -/
theorem signExtend_eq_sextSpec (f n : Nat) (hn1 : 1 ≤ n) (hn2 : n ≤ 15)
    (hf : f < 2 ^ n) : signExtend f n = sextSpec f n := by
  have hppos : 0 < 2 ^ (n - 1) := Nat.two_pow_pos _
  have hq2 : 2 ^ n = 2 * 2 ^ (n - 1) := by
    conv_lhs => rw [show n = (n - 1) + 1 by omega]
    rw [Nat.pow_succ]
    ring
  have hple : 2 ^ n ≤ 32768 := by
    calc 2 ^ n ≤ 2 ^ 15 := Nat.pow_le_pow_right (by norm_num) hn2
      _ = 32768 := by norm_num
  have hbit : (f >>> (n - 1)) &&& 1 = (f / 2 ^ (n - 1)) % 2 := by
    rw [Nat.shiftRight_eq_div_pow, Nat.and_one_is_mod]
  unfold signExtend sextSpec
  by_cases hc : 2 ^ (n - 1) ≤ f
  · have hd1 : f / 2 ^ (n - 1) = 1 := by
      have hlo : 1 ≤ f / 2 ^ (n - 1) :=
        (Nat.le_div_iff_mul_le hppos).2 (by omega)
      have hhi : f / 2 ^ (n - 1) < 2 :=
        Nat.div_lt_of_lt_mul (by omega)
      omega
    rw [if_pos (by rw [hbit, hd1]; norm_num), if_pos hc]
    have hmask : (0xFFFF <<< n) % 65536 = 65536 - 2 ^ n := by
      rw [Nat.shiftLeft_eq]
      have h2 : 1 ≤ 2 ^ n := Nat.one_le_two_pow
      have hsplit : (65535 : Nat) * 2 ^ n =
          (65536 - 2 ^ n) + (2 ^ n - 1) * 65536 := by
        obtain ⟨q, hqn⟩ : ∃ q, 2 ^ n = q := ⟨_, rfl⟩
        rw [hqn] at h2 hple ⊢
        omega
      rw [hsplit, Nat.add_mul_mod_self_right]
      exact Nat.mod_eq_of_lt (by omega)
    rw [hmask]
    have h65 : (65536 : Nat) - 2 ^ n = 2 ^ n * (2 ^ (16 - n) - 1) := by
      rw [Nat.mul_sub_one, ← Nat.pow_add,
        show n + (16 - n) = 16 by omega]
    rw [h65, Nat.lor_comm, ← Nat.mul_add_lt_is_or hf, ← h65]
    have hqi : ((2 : Int) ^ n) = ((2 ^ n : Nat) : Int) := by push_cast; ring
    rw [hqi]
    obtain ⟨q, hqn⟩ : ∃ q, 2 ^ n = q := ⟨_, rfl⟩
    rw [hqn] at hple hf hq2 ⊢
    omega
  · have hd0 : f / 2 ^ (n - 1) = 0 := Nat.div_eq_of_lt (by omega)
    rw [if_neg (by rw [hbit, hd0]; norm_num), if_neg hc]
    have hfsmall : f < 32768 := by omega
    omega

/-- C4: for every 16-bit value v and each field width n used by the
instruction set (5, 6, 9 and 11), signExtend applied to the low n bits of v
equals the 16-bit two's-complement arithmetic sign extension of that n-bit
field: the field itself when its top bit is clear, and the field plus
2 ^ 16 - 2 ^ n (all bits from position n - 1 up set) when its top bit is
set. -/
theorem claim4_sign_extend (v n : Nat) (hv : v < 65536)
    (hn : n = 5 ∨ n = 6 ∨ n = 9 ∨ n = 11) :
    signExtend (v &&& (2 ^ n - 1)) n = sextSpec (v &&& (2 ^ n - 1)) n := by
  have hmask : v &&& (2 ^ n - 1) = v % 2 ^ n :=
    Nat.and_pow_two_sub_one_eq_mod v n
  have h1 : 1 ≤ n := by rcases hn with rfl | rfl | rfl | rfl <;> norm_num
  have h2 : n ≤ 15 := by rcases hn with rfl | rfl | rfl | rfl <;> norm_num
  rw [hmask]
  exact signExtend_eq_sextSpec (v % 2 ^ n) n h1 h2
    (Nat.mod_lt v (Nat.two_pow_pos n))

/-- Witness for C4 at v = 0xFFFF, n = 5: both sides are 0xFFFF. -/
theorem claim4_witness :
    signExtend (0xFFFF &&& (2 ^ 5 - 1)) 5 = sextSpec (0xFFFF &&& (2 ^ 5 - 1)) 5 :=
  claim4_sign_extend 0xFFFF 5 (by norm_num) (Or.inl rfl)


/-- updateFlags leaves every register other than COND unchanged. -/
theorem updateFlags_reg_ne (c : Cpu) (r i : Nat) (hi : i ≠ RCOND) :
    (updateFlags c r).registers i = c.registers i := by
  unfold updateFlags
  split_ifs <;> exact upd_ne _ _ _ _ hi

/-- handleAdd in immediate mode writes src1 plus the sign-extended
5-bit immediate, modulo 2 ^ 16, to the destination register. -/
theorem handleAdd_imm (c : Cpu) (himm : (c.instr >>> 5) &&& 1 = 1) :
    (handleAdd c).registers ((c.instr >>> 9) &&& 0x7) =
      (c.registers ((c.instr >>> 6) &&& 0x7) +
        signExtend (c.instr &&& 0x1F) 5) % 65536 := by
  have hr0 : ((c.instr >>> 9) &&& 0x7) ≠ RCOND := by
    have h7 : (c.instr >>> 9) &&& 0x7 ≤ 7 := Nat.and_le_right
    unfold RCOND
    omega
  unfold handleAdd
  dsimp only
  rw [if_pos himm, updateFlags_reg_ne _ _ _ hr0]
  exact upd_self c.registers _ _

/-- handleAnd in immediate mode writes src1 bitwise-and the sign-extended
5-bit immediate to the destination register. -/
theorem handleAnd_imm (c : Cpu) (himm : (c.instr >>> 5) &&& 1 = 1) :
    (handleAnd c).registers ((c.instr >>> 9) &&& 0x7) =
      c.registers ((c.instr >>> 6) &&& 0x7) &&&
        signExtend (c.instr &&& 0x1F) 5 := by
  have hr0 : ((c.instr >>> 9) &&& 0x7) ≠ RCOND := by
    have h7 : (c.instr >>> 9) &&& 0x7 ≤ 7 := Nat.and_le_right
    unfold RCOND
    omega
  unfold handleAnd
  dsimp only
  rw [if_pos himm, updateFlags_reg_ne _ _ _ hr0]
  exact upd_self c.registers _ _

/-- Counterexample to C5 as stated: for ADD R0, R1, #1 (0x1061) the low
three bits of the immediate field name R1, which is also the first source
register, so two states differing only in that register produce different
written results (1 versus 6). -/
theorem claim5_counterexample :
    (cexAddCpuA.instr >>> 5) &&& 1 = 1 ∧
    cexAddCpuB.instr = cexAddCpuA.instr ∧
    differOnlyAt cexAddCpuA.registers cexAddCpuB.registers
      (cexAddCpuA.instr &&& 0x7) ∧
    (handleAdd cexAddCpuA).registers ((cexAddCpuA.instr >>> 9) &&& 0x7) = 1 ∧
    (handleAdd cexAddCpuB).registers ((cexAddCpuB.instr >>> 9) &&& 0x7) = 6 := by
  refine ⟨by decide, rfl, ?_, by decide, by decide⟩
  intro i hi
  have hi1 : i ≠ 1 := fun h => hi (h.trans rfl)
  simp [cexAddCpuA, cexAddCpuB, hi1]

/-- C5 (amended): an ADD or AND with the immediate-mode bit set writes
src1 plus (respectively bitwise-and) the sign-extended 5-bit immediate,
modulo 2 ^ 16, and the written result is independent of the register named
by the instruction's low three bits provided that register is distinct from
the first source register (bits 8–6): two states differing only in that
register's value yield the same written result. -/
theorem claim5_immediate_mode (c d : Cpu)
    (himm : (c.instr >>> 5) &&& 1 = 1)
    (hinstr : d.instr = c.instr)
    (hdiff : differOnlyAt c.registers d.registers (c.instr &&& 0x7))
    (hne : c.instr &&& 0x7 ≠ (c.instr >>> 6) &&& 0x7) :
    (handleAdd c).registers ((c.instr >>> 9) &&& 0x7) =
      (c.registers ((c.instr >>> 6) &&& 0x7) +
        signExtend (c.instr &&& 0x1F) 5) % 65536 ∧
    (handleAnd c).registers ((c.instr >>> 9) &&& 0x7) =
      c.registers ((c.instr >>> 6) &&& 0x7) &&&
        signExtend (c.instr &&& 0x1F) 5 ∧
    (handleAdd d).registers ((d.instr >>> 9) &&& 0x7) =
      (handleAdd c).registers ((c.instr >>> 9) &&& 0x7) ∧
    (handleAnd d).registers ((d.instr >>> 9) &&& 0x7) =
      (handleAnd c).registers ((c.instr >>> 9) &&& 0x7) := by
  have himmd : (d.instr >>> 5) &&& 1 = 1 := by rw [hinstr]; exact himm
  have hsrc : c.registers ((c.instr >>> 6) &&& 0x7) =
      d.registers ((c.instr >>> 6) &&& 0x7) :=
    hdiff _ (Ne.symm hne)
  refine ⟨handleAdd_imm c himm, handleAnd_imm c himm, ?_, ?_⟩
  · rw [handleAdd_imm d himmd, handleAdd_imm c himm, hinstr, ← hsrc]
  · rw [handleAnd_imm d himmd, handleAnd_imm c himm, hinstr, ← hsrc]

/-- Witness for the amended C5 at concrete states differing only in R2. -/
theorem claim5_witness :
    (handleAdd wCpu5a).registers ((wCpu5a.instr >>> 9) &&& 0x7) =
      (wCpu5a.registers ((wCpu5a.instr >>> 6) &&& 0x7) +
        signExtend (wCpu5a.instr &&& 0x1F) 5) % 65536 ∧
    (handleAnd wCpu5a).registers ((wCpu5a.instr >>> 9) &&& 0x7) =
      wCpu5a.registers ((wCpu5a.instr >>> 6) &&& 0x7) &&&
        signExtend (wCpu5a.instr &&& 0x1F) 5 ∧
    (handleAdd wCpu5b).registers ((wCpu5b.instr >>> 9) &&& 0x7) =
      (handleAdd wCpu5a).registers ((wCpu5a.instr >>> 9) &&& 0x7) ∧
    (handleAnd wCpu5b).registers ((wCpu5b.instr >>> 9) &&& 0x7) =
      (handleAnd wCpu5a).registers ((wCpu5a.instr >>> 9) &&& 0x7) :=
  claim5_immediate_mode wCpu5a wCpu5b (by decide) rfl
    (by
      intro i hi
      have hi2 : i ≠ 2 := fun h => hi (h.trans rfl)
      simp [wCpu5a, wCpu5b, hi2])
    (by decide)


/-- PUTS loop specification: when the words from address a (wrapping) are
nonzero ASCII codes up to a zero word at step k, and the scan stays clear
of the keyboard-status address, the loop terminates normally with exactly
those k words appended to the output as single bytes, in address order,
and with machine state and input untouched. -/
theorem putsLoop_spec (k : Nat) :
    ∀ (c : Cpu) (io : Streams) (a n : Nat), a < 65536 →
    (∀ i, i < k → c.memory ((a + i) % 65536) ≠ 0) →
    (∀ i, i < k → c.memory ((a + i) % 65536) < 128) →
    c.memory ((a + k) % 65536) = 0 →
    (∀ i, i ≤ k → (a + i) % 65536 ≠ MRKBSR) →
    k < n →
    putsLoop n c io a =
      some (c, { io with output := io.output ++
        (List.range k).map (fun i => c.memory ((a + i) % 65536)) },
        Outcome.ok) := by
  induction k with
  | zero =>
    intro c io a n ha hnz hascii hzero hkb hn
    obtain ⟨m, rfl⟩ : ∃ m, n = m + 1 := ⟨n - 1, by omega⟩
    have ha0 : (a + 0) % 65536 = a := by omega
    simp only [putsLoop]
    rw [memoryRead_eq_other c io a (by have h := hkb 0 (by omega); rwa [ha0] at h)]
    dsimp only
    rw [if_pos (by have h := hzero; rwa [ha0] at h)]
    simp
  | succ k ih =>
    intro c io a n ha hnz hascii hzero hkb hn
    obtain ⟨m, rfl⟩ : ∃ m, n = m + 1 := ⟨n - 1, by omega⟩
    have ha0 : (a + 0) % 65536 = a := by omega
    have hch : c.memory a ≠ 0 := by have h := hnz 0 (by omega); rwa [ha0] at h
    have hasc : c.memory a < 128 := by
      have h := hascii 0 (by omega); rwa [ha0] at h
    have hmod : ∀ i, ((a + 1) % 65536 + i) % 65536 = (a + (i + 1)) % 65536 := by
      intro i
      rw [Nat.mod_add_mod]
      congr 1
      omega
    simp only [putsLoop]
    rw [memoryRead_eq_other c io a (by have h := hkb 0 (by omega); rwa [ha0] at h)]
    dsimp only
    rw [if_neg hch]
    have hae : utf8Encode (c.memory a) = [c.memory a] := by
      unfold utf8Encode
      rw [if_pos hasc]
    rw [hae,
      ih c { io with output := io.output ++ [c.memory a] } ((a + 1) % 65536) m
        (Nat.mod_lt _ (by norm_num))
        (fun i hi => by rw [hmod i]; exact hnz (i + 1) (by omega))
        (fun i hi => by rw [hmod i]; exact hascii (i + 1) (by omega))
        (by rw [hmod k]; exact hzero)
        (fun i hi => by rw [hmod i]; exact hkb (i + 1) (by omega))
        (by omega)]
    have hout : (io.output ++ [c.memory a]) ++
        (List.range k).map (fun i => c.memory (((a + 1) % 65536 + i) % 65536)) =
        io.output ++ (List.range (k + 1)).map
          (fun i => c.memory ((a + i) % 65536)) := by
      rw [List.append_assoc]
      congr 1
      rw [List.range_succ_eq_map, List.map_cons, List.map_map, ha0,
        List.singleton_append]
      congr 1
      apply List.map_congr_left
      intro i _
      show c.memory (((a + 1) % 65536 + i) % 65536) =
        c.memory ((a + (i + 1)) % 65536)
      rw [hmod i]
    simp only [hout]

/-- Counterexample to C2 as stated: a single nonzero word 0x0100 before
the zero word makes PUTS write the two UTF-8 bytes 0xC4 0x80, not the one
low byte 0x00. -/
theorem claim2_counterexample :
    cexPutsCpu.memory (cexPutsCpu.registers RR0) = 256 ∧
    cexPutsCpu.memory (cexPutsCpu.registers RR0 + 1) = 0 ∧
    handlePuts 2 cexPutsCpu emptyStreams =
      some (cexPutsCpu, { emptyStreams with output := [196, 128] },
        Outcome.ok) ∧
    [196, 128] ≠ [256 % 256] := by
  exact ⟨rfl, rfl, rfl, by decide⟩

/-- C2 (amended): when the scan from the address in R0 reaches a zero word
after k nonzero words that are all ASCII (below 0x80), and the scanned
addresses avoid the keyboard-status address, the PUTS handler writes
exactly one byte per nonzero word — each word itself, which for an ASCII
word is its low byte — in address order, stops at the first zero word,
leaves machine state and input untouched, and appends no trailing
newline.  (Non-ASCII words are instead written as their multi-byte UTF-8
encoding.) -/
theorem claim2_puts_ascii (c : Cpu) (io : Streams) (k n : Nat)
    (hr0 : c.registers RR0 < 65536)
    (hnz : ∀ i, i < k → c.memory ((c.registers RR0 + i) % 65536) ≠ 0)
    (hascii : ∀ i, i < k → c.memory ((c.registers RR0 + i) % 65536) < 128)
    (hzero : c.memory ((c.registers RR0 + k) % 65536) = 0)
    (hkb : ∀ i, i ≤ k → (c.registers RR0 + i) % 65536 ≠ MRKBSR)
    (hn : k < n) :
    handlePuts n c io =
      some (c, { io with output := io.output ++
        (List.range k).map (fun i => c.memory ((c.registers RR0 + i) % 65536)) },
        Outcome.ok) :=
  putsLoop_spec k c io (c.registers RR0) n hr0 hnz hascii hzero hkb hn

/-- Witness for the amended C2: the spec's "Hi" scenario writes exactly
the bytes 'H' and 'i'. -/
theorem claim2_witness :
    handlePuts 3 wCpu2 emptyStreams =
      some (wCpu2, ⟨[], [72, 105], []⟩, Outcome.ok) :=
  claim2_puts_ascii wCpu2 emptyStreams 2 3 (by decide) (by decide) (by decide)
    (by decide) (by decide) (by decide)


/-- Both scanning trap loops (PUTS and PUTSP) fail to terminate within any
fuel bound while memory holds no zero word and stdin keeps delivering
nonzero bytes: every keyboard-status visit then stores the nonzero status
word, so the no-zero-word invariant is preserved and no read ever returns
zero. -/
theorem scanLoops_diverge :
    ∀ (n : Nat) (c : Cpu) (io : Streams) (buf : List Nat) (a : Nat),
    a < 65536 →
    noZeroWord c.memory →
    (∀ b ∈ io.input, b ≠ 0) →
    n ≤ io.input.length →
    putsLoop n c io a = none ∧ putspLoop n c io buf a = none := by
  intro n
  induction n with
  | zero =>
    intro c io buf a _ _ _ _
    exact ⟨rfl, rfl⟩
  | succ m ih =>
    intro c io buf a ha hz hb hlen
    by_cases hksr : a = MRKBSR
    · subst hksr
      cases hin : io.input with
      | nil =>
        rw [hin] at hlen
        simp at hlen
      | cons key rest =>
        have hkey : key ≠ 0 := hb key (by rw [hin]; exact List.mem_cons_self ..)
        have hnoz1 : noZeroWord
            (upd (upd c.memory MRKBSR (1 <<< 15)) MRKBDR key) := by
          intro x hx
          unfold upd
          split_ifs
          · exact hkey
          · decide
          · exact hz x hx
        have hb1 : ∀ b ∈ rest, b ≠ 0 := fun b hbm =>
          hb b (by rw [hin]; exact List.mem_cons_of_mem _ hbm)
        have hlen1 : m ≤ rest.length := by
          rw [hin] at hlen
          rw [List.length_cons] at hlen
          omega
        have hanext : (MRKBSR + 1) % 65536 < 65536 := Nat.mod_lt _ (by norm_num)
        constructor
        · simp only [putsLoop]
          rw [memoryRead_eq_kbsr_cons_pos c io key rest hin hkey]
          dsimp only
          rw [if_neg (by decide)]
          refine (ih _ _ [] _ hanext hnoz1 hb1 hlen1).1
        · simp only [putspLoop]
          rw [memoryRead_eq_kbsr_cons_pos c io key rest hin hkey]
          dsimp only
          rw [if_neg (by decide)]
          refine (ih _ _ _ _ hanext hnoz1 hb1 hlen1).2
    · have hch : c.memory a ≠ 0 := hz a ha
      have hanext : (a + 1) % 65536 < 65536 := Nat.mod_lt _ (by norm_num)
      have hlen1 : m ≤ io.input.length := by omega
      constructor
      · simp only [putsLoop]
        rw [memoryRead_eq_other c io a hksr]
        dsimp only
        rw [if_neg hch]
        refine (ih c { io with output := io.output ++ utf8Encode (c.memory a) } [] ((a + 1) % 65536) hanext hz hb hlen1).1
      · simp only [putspLoop]
        rw [memoryRead_eq_other c io a hksr]
        dsimp only
        rw [if_neg hch]
        refine (ih _ _ _ _ hanext hz hb hlen1).2

/-- Counterexample to C10 as stated: with no zero word anywhere in memory
and R0 = 0xFE00, a successful read of the single input byte 0 stores 0
into the keyboard-status word, so PUTS terminates normally instead of
looping forever, even though no input read failed. -/
theorem claim10_counterexample :
    noZeroWord cexLoopCpu.memory ∧
    cexLoopStreams.input = [0] ∧
    handlePuts 2 cexLoopCpu cexLoopStreams =
      some ({ cexLoopCpu with memory := upd cexLoopCpu.memory MRKBSR 0 },
        ⟨[], [], []⟩, Outcome.ok) := by
  refine ⟨?_, rfl, rfl⟩
  intro x hx
  simp [cexLoopCpu]

/-- C10 (amended): PUTS and PUTSP terminate normally exactly when the scan
from R0 reaches a zero word; when no 16-bit address holds a zero word and
the input reads neither fail nor deliver a zero byte, both handlers run out
of any fuel bound, blocking on one input byte at each keyboard-status
visit. -/
theorem claim10_scan_divergence (n : Nat) (c : Cpu) (io : Streams)
    (hr0 : c.registers RR0 < 65536)
    (hmem : noZeroWord c.memory)
    (hinp : ∀ b ∈ io.input, b ≠ 0)
    (hlen : n ≤ io.input.length) :
    handlePuts n c io = none ∧ handlePutsP n c io = none :=
  scanLoops_diverge n c io [] (c.registers RR0) hr0 hmem hinp hlen

/-- Witness for the amended C10 at a concrete all-nonzero memory. -/
theorem claim10_witness :
    handlePuts 5 wCpu10 wStreams10 = none ∧
    handlePutsP 5 wCpu10 wStreams10 = none :=
  claim10_scan_divergence 5 wCpu10 wStreams10 (by decide)
    (by intro x hx; simp [wCpu10]) (by decide) (by decide)

end LC3
